import Mathlib

/-!
Verification of the color-conversion pipeline of the rgb-to-cmyk guide
(sandbox script): hex parsing, sRGB gamma codec, Bradford chromatic
adaptation between D65 and D50, CIE Lab codec, rendering-intent
transforms, and the approximate CMYK codec with gray-component removal.

The JavaScript source is embedded shallowly: numeric channels become
real numbers, triplets become `ℝ × ℝ × ℝ`, `Math.pow`/`Math.cbrt` on the
positive reals reached by the guarded branches become `Real.rpow`, and
the fallible hex parser returns an `Option`.
-/

namespace ColorPipe

/-- A color triplet (sRGB, linear RGB, XYZ or Lab components). -/
abbrev Vec3 := ℝ × ℝ × ℝ

/-- A 3×3 matrix, stored as three rows. -/
abbrev Mat3 := Vec3 × Vec3 × Vec3

/-- A CMYK quadruplet (C, M, Y, K). -/
abbrev Cmyk := ℝ × ℝ × ℝ × ℝ

/-- Source `clamp(v, lo, hi) = Math.min(Math.max(v, lo), hi)`. -/
noncomputable def clamp (v lo hi : ℝ) : ℝ := min (max v lo) hi

/-- Whitespace characters removed by the JavaScript `String.trim` on the
ASCII-range inputs of interest (space, tab, and line terminators). -/
def isWS (c : Char) : Bool :=
  c = ' ' || c = '\t' || c = '\n' || c = '\r' || c = '\x0b' || c = '\x0c'

/-- Model of `hex.trim()`: drop whitespace from both ends. -/
def jsTrim (l : List Char) : List Char :=
  ((l.dropWhile isWS).reverse.dropWhile isWS).reverse

/-- A character matched by the regex class `[a-f\d]` under the `i` flag. -/
def isHexDigit (c : Char) : Bool :=
  ('0' ≤ c && c ≤ '9') || ('a' ≤ c && c ≤ 'f') || ('A' ≤ c && c ≤ 'F')

/-- Numeric value of one hexadecimal digit, as used by `parseInt(·, 16)`. -/
def hexVal (c : Char) : ℕ :=
  if '0' ≤ c && c ≤ '9' then c.toNat - '0'.toNat
  else if 'a' ≤ c && c ≤ 'f' then c.toNat - 'a'.toNat + 10
  else if 'A' ≤ c && c ≤ 'F' then c.toNat - 'A'.toNat + 10
  else 0

/-- The regex `^#?` part: remove one leading `#` marker when present. -/
def stripHash (l : List Char) : List Char :=
  if l.head? = some '#' then l.tail else l

/-- The regex `([a-f\d]{2})([a-f\d]{2})([a-f\d]{2})$` part together with the
three `parseInt(m[i], 16)` calls: exactly six hex digits, read as three
two-digit bytes. -/
def parse6 (l : List Char) : Option (ℕ × ℕ × ℕ) :=
  match l with
  | [c1, c2, c3, c4, c5, c6] =>
    if isHexDigit c1 && isHexDigit c2 && isHexDigit c3 &&
       isHexDigit c4 && isHexDigit c5 && isHexDigit c6 then
      some (16 * hexVal c1 + hexVal c2, 16 * hexVal c3 + hexVal c4,
            16 * hexVal c5 + hexVal c6)
    else none
  | _ => none

/-- Integer core of `hexToRgb`: trim, strip the optional marker, match six
hex digits, return the three raw bytes. -/
def hexToRgbN (l : List Char) : Option (ℕ × ℕ × ℕ) :=
  parse6 (stripHash (jsTrim l))

/-- Source `hexToRgb`: parse `#RRGGBB` (after trimming) and normalize each
byte to `[0,1]` by dividing by 255; `null` (here `none`) on invalid input. -/
noncomputable def hexToRgb (s : String) : Option Vec3 :=
  (hexToRgbN s.data).map fun t =>
    ((t.1 : ℝ) / 255, (t.2.1 : ℝ) / 255, (t.2.2 : ℝ) / 255)

/-- Modelled from the spec (§6 accepted input): a string optionally
prefixed with `#`, followed by exactly 6 case-insensitive hexadecimal
digits.  This is the spec-side shape predicate that claim C1 compares
against the code's parser; it is deliberately written from the spec's
words (no trimming). -/
def validHexShape (l : List Char) : Bool :=
  let core := if l.head? = some '#' then l.tail else l
  core.length = 6 && core.all isHexDigit

/-- Source `srgbToLinear`: sRGB electro-optical transfer (gamma removal). -/
noncomputable def srgbToLinear (c : ℝ) : ℝ :=
  if c ≤ 0.04045 then c / 12.92 else ((c + 0.055) / 1.055) ^ (2.4 : ℝ)

/-- Source `linearToSrgb`: inverse sRGB transfer (gamma companding). -/
noncomputable def linearToSrgb (c : ℝ) : ℝ :=
  if c ≤ 0.0031308 then 12.92 * c else 1.055 * c ^ ((1 : ℝ) / 2.4) - 0.055

/-- Source `mul3x3`: fixed 3×3 matrix times 3-vector. -/
noncomputable def mul3x3 (a : Mat3) (b : Vec3) : Vec3 :=
  (a.1.1 * b.1 + a.1.2.1 * b.2.1 + a.1.2.2 * b.2.2,
   a.2.1.1 * b.1 + a.2.1.2.1 * b.2.1 + a.2.1.2.2 * b.2.2,
   a.2.2.1 * b.1 + a.2.2.2.1 * b.2.1 + a.2.2.2.2 * b.2.2)

/-- Bradford cone-response matrix `M`. -/
noncomputable def M : Mat3 :=
  ((0.8951, 0.2664, -0.1614),
   (-0.7502, 1.7135, 0.0367),
   (0.0389, -0.0685, 1.0296))

/-- Inverse Bradford matrix `Mi` (to the source's 7-decimal precision). -/
noncomputable def Mi : Mat3 :=
  ((0.9869929, -0.1470543, 0.1599627),
   (0.4323053, 0.5183603, 0.0492912),
   (-0.0085287, 0.0400428, 0.9684867))

/-- Reference white D65. -/
noncomputable def D65 : Vec3 := (0.95047, 1.00000, 1.08883)

/-- Reference white D50. -/
noncomputable def D50 : Vec3 := (0.96422, 1.00000, 0.82521)

/-- Source `adaptD65toD50`: Bradford adaptation of an XYZ triplet from
white D65 to white D50. -/
noncomputable def adaptD65toD50 (xyz : Vec3) : Vec3 :=
  let lms := mul3x3 M xyz
  let lmsWSrc := mul3x3 M D65
  let lmsWDst := mul3x3 M D50
  let scale : Vec3 :=
    (lmsWDst.1 / lmsWSrc.1, lmsWDst.2.1 / lmsWSrc.2.1, lmsWDst.2.2 / lmsWSrc.2.2)
  let lmsC : Vec3 := (lms.1 * scale.1, lms.2.1 * scale.2.1, lms.2.2 * scale.2.2)
  mul3x3 Mi lmsC

/-- Source `adaptD50toD65`: the same formula with source and destination
whites swapped. -/
noncomputable def adaptD50toD65 (xyz : Vec3) : Vec3 :=
  let lms := mul3x3 M xyz
  let lmsWSrc := mul3x3 M D50
  let lmsWDst := mul3x3 M D65
  let scale : Vec3 :=
    (lmsWDst.1 / lmsWSrc.1, lmsWDst.2.1 / lmsWSrc.2.1, lmsWDst.2.2 / lmsWSrc.2.2)
  let lmsC : Vec3 := (lms.1 * scale.1, lms.2.1 * scale.2.1, lms.2.2 * scale.2.2)
  mul3x3 Mi lmsC

/-- Linear sRGB → XYZ(D65) matrix. -/
noncomputable def M_srgb_to_xyz : Mat3 :=
  ((0.4124564, 0.3575761, 0.1804375),
   (0.2126729, 0.7151522, 0.0721750),
   (0.0193339, 0.1191920, 0.9503041))

/-- XYZ(D65) → linear sRGB matrix. -/
noncomputable def M_xyz_to_srgb : Mat3 :=
  ((3.2404542, -1.5371385, -0.4985314),
   (-0.9692660, 1.8760108, 0.0415560),
   (0.0556434, -0.2040259, 1.0572252))

/-- Source `f_lab`: the CIE Lab helper, `cbrt t` above the breakpoint
`eps = 216/24389` and the linear segment `(k·t+16)/116` (with
`k = 24389/27`) below it.  `Math.cbrt` is only reached for `t > eps > 0`,
where it coincides with `t ^ (1/3)`. -/
noncomputable def f_lab (t : ℝ) : ℝ :=
  if 216 / 24389 < t then t ^ ((1 : ℝ) / 3) else ((24389 / 27) * t + 16) / 116

/-- Source `xyzD50_to_lab`: XYZ (relative to D50) to CIE Lab. -/
noncomputable def xyzD50_to_lab (xyz : Vec3) : Vec3 :=
  let xr := xyz.1 / D50.1
  let yr := xyz.2.1 / D50.2.1
  let zr := xyz.2.2 / D50.2.2
  (116 * f_lab yr - 16, 500 * (f_lab xr - f_lab yr), 200 * (f_lab yr - f_lab zr))

/-- Source `finv_lab`: inverse Lab helper, `t³` when `t³ > eps`, else the
linear segment `(116t−16)/k`. -/
noncomputable def finv_lab (t : ℝ) : ℝ :=
  if 216 / 24389 < t * t * t then t * t * t else (116 * t - 16) / (24389 / 27)

/-- Source `lab_to_xyzD50`: CIE Lab back to XYZ (relative to D50). -/
noncomputable def lab_to_xyzD50 (lab : Vec3) : Vec3 :=
  let fy := (lab.1 + 16) / 116
  let fx := fy + lab.2.1 / 500
  let fz := fy - lab.2.2 / 200
  (finv_lab fx * D50.1, finv_lab fy * D50.2.1, finv_lab fz * D50.2.2)

/-- The three clamped display-encoded channels `sr`, `sg`, `sb` computed
at the start of `rgbLinear_to_cmyk` (the source inlines the body of
`linearToSrgb` and clamps to `[0,1]`). -/
noncomputable def displayEncode (lin : Vec3) : Vec3 :=
  (clamp (linearToSrgb lin.1) 0 1,
   clamp (linearToSrgb lin.2.1) 0 1,
   clamp (linearToSrgb lin.2.2) 0 1)

/-- Source `rgbLinear_to_cmyk`: encode to display space, take complements,
extract `K = min(C, M, Y)`, return `(0,0,0,1)` when the channel is
effectively black (`K ≥ 1 − 1e-6`), else normalize by `1 − K`. -/
noncomputable def rgbLinear_to_cmyk (lin : Vec3) : Cmyk :=
  let s := displayEncode lin
  let c := 1 - s.1
  let m := 1 - s.2.1
  let y := 1 - s.2.2
  let k := min c (min m y)
  if 1 - 1e-6 ≤ k then (0, 0, 0, 1)
  else ((c - k) / (1 - k), (m - k) / (1 - k), (y - k) / (1 - k), k)

/-- Source `cmyk_to_rgb`: naive inversion used for the preview swatch. -/
noncomputable def cmyk_to_rgb (q : Cmyk) : Vec3 :=
  ((1 - q.1) * (1 - q.2.2.2), (1 - q.2.1) * (1 - q.2.2.2),
   (1 - q.2.2.1) * (1 - q.2.2.2))

/-- Source `intent_perceptual`. -/
noncomputable def intent_perceptual (lab : Vec3) : Vec3 :=
  (lab.1 * 0.96 + 0.9, lab.2.1 * 0.96, lab.2.2 * 0.93)

/-- Source `intent_saturation`. -/
noncomputable def intent_saturation (lab : Vec3) : Vec3 :=
  (lab.1 * 0.96 + 1.1, lab.2.1 * 1.09, lab.2.2 * 1.08)

/-- Source `intent_relative`. -/
noncomputable def intent_relative (lab : Vec3) : Vec3 :=
  (lab.1 * 0.96 + 0.9, lab.2.1 * 1.09, lab.2.2 * 1.08)

/-- Source `intent_absolute`. -/
noncomputable def intent_absolute (lab : Vec3) : Vec3 :=
  (lab.1 * 1.11 + 0.2, lab.2.1 * 1.17, lab.2.2 * 1.05)

/-- Source `intent_naive`: `Lab.slice()`, a copy, i.e. the identity on
the triplet's value. -/
def intent_naive (lab : Vec3) : Vec3 := lab

/-- Result record of `hexToLabD50`: `{lin, XYZd65, XYZd50, Lab}`. -/
structure PipelineResult where
  lin : Vec3
  XYZd65 : Vec3
  XYZd50 : Vec3
  Lab : Vec3

/-- Source `hexToLabD50`: parse, linearize per channel, convert to
XYZ(D65), adapt to XYZ(D50), convert to Lab(D50); `null` on bad hex. -/
noncomputable def hexToLabD50 (s : String) : Option PipelineResult :=
  match hexToRgb s with
  | none => none
  | some rgb =>
    let lin : Vec3 := (srgbToLinear rgb.1, srgbToLinear rgb.2.1, srgbToLinear rgb.2.2)
    let xyzD65 := mul3x3 M_srgb_to_xyz lin
    let xyzD50 := adaptD65toD50 xyzD65
    some ⟨lin, xyzD65, xyzD50, xyzD50_to_lab xyzD50⟩

/-- Source `labToLinearRgbViaD50`: Lab → XYZ(D50) → XYZ(D65) → linear RGB,
clamped componentwise to `[0,1]`. -/
noncomputable def labToLinearRgbViaD50 (lab : Vec3) : Vec3 :=
  let xyzD50 := lab_to_xyzD50 lab
  let xyzD65 := adaptD50toD65 xyzD50
  let lin := mul3x3 M_xyz_to_srgb xyzD65
  (clamp lin.1 0 1, clamp lin.2.1 0 1, clamp lin.2.2 0 1)

/-! ## Parsing lemmas -/

/-- The six-digit matcher succeeds exactly on six hex digits. -/
theorem parse6_isSome (l : List Char) :
    (parse6 l).isSome = (decide (l.length = 6) && l.all isHexDigit) := by
  rcases l with _ | ⟨a, _ | ⟨b, _ | ⟨c, _ | ⟨d, _ | ⟨e, _ | ⟨f, _ | ⟨g, t⟩⟩⟩⟩⟩⟩⟩
  · simp [parse6]
  · simp [parse6]
  · simp [parse6]
  · simp [parse6]
  · simp [parse6]
  · simp [parse6]
  · by_cases h : (isHexDigit a && isHexDigit b && isHexDigit c &&
       isHexDigit d && isHexDigit e && isHexDigit f)
    · simp only [parse6, if_pos h, Option.isSome_some]
      simp only [Bool.and_assoc] at h
      simp [h]
    · simp only [parse6, if_neg h, Option.isSome_none]
      rw [Bool.not_eq_true] at h
      simp only [Bool.and_assoc] at h
      simp [h]
  · simp [parse6]

/-- The parser accepts a string exactly when its trimmed character list
has the spec's shape. -/
theorem hexToRgb_isSome_eq (s : String) :
    (hexToRgb s).isSome = validHexShape (jsTrim s.data) := by
  have h1 : (hexToRgb s).isSome = (hexToRgbN s.data).isSome := by
    rw [hexToRgb]; cases hexToRgbN s.data <;> rfl
  rw [h1, hexToRgbN, parse6_isSome, validHexShape, stripHash]

/-- Dropping a run of characters that all satisfy `p` from the front of an
append leaves `dropWhile p` of the tail. -/
theorem dropWhile_all_append (p : Char → Bool) (pre l : List Char) (h : pre.all p) :
    (pre ++ l).dropWhile p = l.dropWhile p := by
  induction pre with
  | nil => rfl
  | cons c cs ih =>
    simp only [List.all_cons, Bool.and_eq_true] at h
    simp [List.dropWhile_cons, h.1, ih h.2]

/-- Trimming ignores all-whitespace padding on both ends. -/
theorem jsTrim_pad (pre post l : List Char) (hpre : pre.all isWS) (hpost : post.all isWS) :
    jsTrim (pre ++ l ++ post) = jsTrim l := by
  unfold jsTrim
  rw [List.append_assoc, dropWhile_all_append _ _ _ hpre]
  by_cases hl : l.dropWhile isWS = []
  · have hall : ∀ x ∈ l, isWS x := List.dropWhile_eq_nil_iff.mp hl
    have h2 : (l ++ post).dropWhile isWS = [] := by
      apply List.dropWhile_eq_nil_iff.mpr
      intro x hx
      rcases List.mem_append.mp hx with h | h
      · exact hall x h
      · exact List.all_eq_true.mp hpost x h
    rw [h2, hl]
  · have h3 : (l ++ post).dropWhile isWS = l.dropWhile isWS ++ post := by
      induction l with
      | nil => simp at hl
      | cons c cs ih =>
        by_cases hc : isWS c
        · simp only [List.dropWhile_cons, hc, if_true] at hl ⊢
          simp only [List.cons_append, List.dropWhile_cons, hc, if_true]
          exact ih hl
        · simp only [List.cons_append, List.dropWhile_cons, hc, if_false]
          simp [List.dropWhile_cons, hc]
    rw [h3, List.reverse_append, dropWhile_all_append _ _ _ (by simpa using hpost)]

/-! ## Claims -/

/-- C1 (counterexample): the claimed acceptance condition — the raw string
itself is an optional `#` marker followed by exactly 6 hex digits — is
violated at the input `" 629c67"`: the parser accepts it (because it
trims first) although the string does not have the claimed shape. -/
theorem claim_C1_counterexample :
    (hexToRgb " 629c67").isSome = true ∧ validHexShape (String.data " 629c67") = false := by
  constructor
  · have h1 : (hexToRgb " 629c67").isSome = (hexToRgbN (String.data " 629c67")).isSome := by
      rw [hexToRgb]; cases hexToRgbN (String.data " 629c67") <;> rfl
    rw [h1]; decide
  · decide

/-- C1 (amended): the parser accepts a string `s` if and only if `s`,
after trimming leading and trailing whitespace, is an optional leading
`#` marker followed by exactly 6 case-insensitive hexadecimal digits;
the inputs `"zzzzzz"`, `"#12345"`, `""`, `"12345g"` all fail with the
InvalidHex result (`none`), while `"629c67"` and `"#629c67"` both succeed
and produce identical output. -/
theorem claim_C1_amended :
    (∀ s : String, (hexToRgb s).isSome = validHexShape (jsTrim s.data)) ∧
    hexToRgb "zzzzzz" = none ∧ hexToRgb "#12345" = none ∧
    hexToRgb "" = none ∧ hexToRgb "12345g" = none ∧
    (hexToRgb "629c67").isSome = true ∧
    hexToRgb "629c67" = hexToRgb "#629c67" ∧
    hexToLabD50 "629c67" = hexToLabD50 "#629c67" := by
  have hnone : ∀ s : String, hexToRgbN s.data = none → hexToRgb s = none := by
    intro s h; rw [hexToRgb, h]; rfl
  have heq : hexToRgb "629c67" = hexToRgb "#629c67" := by
    rw [hexToRgb, hexToRgb,
      show hexToRgbN (String.data "629c67") = some (98, 156, 103) from by decide,
      show hexToRgbN (String.data "#629c67") = some (98, 156, 103) from by decide]
  refine ⟨hexToRgb_isSome_eq, hnone _ (by decide), hnone _ (by decide),
    hnone _ (by decide), hnone _ (by decide), ?_, heq, ?_⟩
  · rw [hexToRgb_isSome_eq]; decide
  · rw [hexToLabD50, hexToLabD50, heq]

/-- C10: whitespace padding around an accepted hex string is itself
accepted and yields the same parsed sRGB triplet, because the parser
trims its input before matching. -/
theorem claim_C10 (s : String) (pre post : List Char)
    (hpre : pre.all isWS = true) (hpost : post.all isWS = true)
    (hsome : (hexToRgb s).isSome = true) :
    hexToRgb ⟨pre ++ s.data ++ post⟩ = hexToRgb s := by
  rw [hexToRgb, hexToRgb, hexToRgbN, hexToRgbN,
    show (String.mk (pre ++ s.data ++ post)).data = pre ++ s.data ++ post from rfl,
    jsTrim_pad _ _ _ hpre hpost]

/-- C10 witness: `" 629c67 "` parses to the same triplet as `"629c67"`. -/
theorem claim_C10_witness :
    ([' '].all isWS = true) ∧ ([' '].all isWS = true) ∧
    ((hexToRgb "629c67").isSome = true) ∧
    hexToRgb ⟨[' '] ++ (String.data "629c67") ++ [' ']⟩ = hexToRgb "629c67" := by
  have hs : (hexToRgb "629c67").isSome = true := by rw [hexToRgb_isSome_eq]; decide
  exact ⟨by decide, by decide, hs, claim_C10 "629c67" [' '] [' '] (by decide) (by decide) hs⟩

/-- A rational lower bound for a real power with rational exponent `p/q`,
certified by an integer-power comparison. -/
theorem le_rpow_of_pow_le {a x : ℝ} {p q : ℕ} (hq : q ≠ 0) (ha : 0 ≤ a) (hx : 0 ≤ x)
    (h : a ^ q ≤ x ^ p) : a ≤ x ^ ((p : ℝ) / (q : ℝ)) := by
  have hq' : ((q : ℝ)) ≠ 0 := Nat.cast_ne_zero.mpr hq
  have h1 : x ^ ((p : ℝ) / (q : ℝ)) = (x ^ p) ^ ((1 : ℝ) / q) := by
    rw [← Real.rpow_natCast x p, ← Real.rpow_mul hx]
    congr 1
    field_simp
  have h2 : a = (a ^ q) ^ ((1 : ℝ) / q) := by
    rw [← Real.rpow_natCast a q, ← Real.rpow_mul ha, mul_one_div, div_self hq', Real.rpow_one]
  rw [h1, h2]
  exact Real.rpow_le_rpow (pow_nonneg ha q) h (by positivity)

/-- A rational upper bound for a real power with rational exponent `p/q`,
certified by an integer-power comparison. -/
theorem rpow_le_of_pow_le {a x : ℝ} {p q : ℕ} (hq : q ≠ 0) (ha : 0 ≤ a) (hx : 0 ≤ x)
    (h : x ^ p ≤ a ^ q) : x ^ ((p : ℝ) / (q : ℝ)) ≤ a := by
  have hq' : ((q : ℝ)) ≠ 0 := Nat.cast_ne_zero.mpr hq
  have h1 : x ^ ((p : ℝ) / (q : ℝ)) = (x ^ p) ^ ((1 : ℝ) / q) := by
    rw [← Real.rpow_natCast x p, ← Real.rpow_mul hx]
    congr 1
    field_simp
  have h2 : a = (a ^ q) ^ ((1 : ℝ) / q) := by
    rw [← Real.rpow_natCast a q, ← Real.rpow_mul ha, mul_one_div, div_self hq', Real.rpow_one]
  rw [h1, h2]
  exact Real.rpow_le_rpow (pow_nonneg hx p) h (by positivity)

/-- Bounds for the Lab helper on an interval above the CIE breakpoint,
certified by cubing the rational endpoints. -/
theorem f_lab_bounds (t lo hi a b : ℝ) (hlo : lo ≤ t) (hhi : t ≤ hi)
    (heps : (216 : ℝ) / 24389 < lo) (ha : 0 ≤ a) (ha3 : a ^ 3 ≤ lo)
    (hb : 0 ≤ b) (hb3 : hi ≤ b ^ 3) : a ≤ f_lab t ∧ f_lab t ≤ b := by
  have ht0 : (0 : ℝ) ≤ t := le_of_lt (lt_of_lt_of_le (lt_trans (by norm_num) heps) hlo)
  rw [f_lab, if_pos (lt_of_lt_of_le heps hlo)]
  rw [show ((1 : ℝ) / 3) = ((1 : ℕ) : ℝ) / ((3 : ℕ) : ℝ) from by norm_num]
  constructor
  · apply le_rpow_of_pow_le (by norm_num) ha ht0
    rw [pow_one]
    exact ha3.trans hlo
  · apply rpow_le_of_pow_le (by norm_num) hb ht0
    rw [pow_one]
    exact hhi.trans hb3

set_option maxHeartbeats 4000000 in
/-- C2: for input `#629c67` the base Lab is within ±0.5 per component of
`(59.3, −28.1, 21.6)`, the Perceptual intent of that base is within ±0.5
of `(57.8, −27.0, 20.1)`, and the Naive intent reproduces the base Lab
exactly. -/
theorem claim_C2 :
    ∃ r : PipelineResult, hexToLabD50 "#629c67" = some r ∧
      (|r.Lab.1 - 59.3| ≤ 0.5 ∧ |r.Lab.2.1 + 28.1| ≤ 0.5 ∧ |r.Lab.2.2 - 21.6| ≤ 0.5) ∧
      (|(intent_perceptual r.Lab).1 - 57.8| ≤ 0.5 ∧ |(intent_perceptual r.Lab).2.1 + 27| ≤ 0.5 ∧
        |(intent_perceptual r.Lab).2.2 - 20.1| ≤ 0.5) ∧
      intent_naive r.Lab = r.Lab := by
  have hrgb : hexToRgb "#629c67" = some ((98 : ℝ) / 255, (156 : ℝ) / 255, (103 : ℝ) / 255) := by
    rw [hexToRgb, show hexToRgbN (String.data "#629c67") = some (98, 156, 103) from by decide]
    norm_num
  set lr := srgbToLinear ((98 : ℝ) / 255) with hlrdef
  set lg := srgbToLinear ((156 : ℝ) / 255) with hlgdef
  set lb := srgbToLinear ((103 : ℝ) / 255) with hlbdef
  set X := mul3x3 M_srgb_to_xyz (lr, lg, lb) with hXdef
  set W := adaptD65toD50 X with hWdef
  have e24 : (2.4 : ℝ) = ((12 : ℕ) : ℝ) / ((5 : ℕ) : ℝ) := by norm_num
  have hlr : (0.122138772228 : ℝ) ≤ lr ∧ lr ≤ 0.122138772230 := by
    rw [hlrdef, srgbToLinear, if_neg (by norm_num), e24]
    constructor
    · exact le_rpow_of_pow_le (by norm_num) (by norm_num) (by positivity) (by norm_num)
    · exact rpow_le_of_pow_le (by norm_num) (by norm_num) (by positivity) (by norm_num)
  have hlg : (0.332451536345 : ℝ) ≤ lg ∧ lg ≤ 0.332451536347 := by
    rw [hlgdef, srgbToLinear, if_neg (by norm_num), e24]
    constructor
    · exact le_rpow_of_pow_le (by norm_num) (by norm_num) (by positivity) (by norm_num)
    · exact rpow_le_of_pow_le (by norm_num) (by norm_num) (by positivity) (by norm_num)
  have hlb : (0.135633329654 : ℝ) ≤ lb ∧ lb ≤ 0.135633329656 := by
    rw [hlbdef, srgbToLinear, if_neg (by norm_num), e24]
    constructor
    · exact le_rpow_of_pow_le (by norm_num) (by norm_num) (by positivity) (by norm_num)
    · exact rpow_le_of_pow_le (by norm_num) (by norm_num) (by positivity) (by norm_num)
  have hX1 : (0.19372698100 : ℝ) ≤ X.1 ∧ X.1 ≤ 0.19372698103 := by
    rw [hXdef]
    simp only [mul3x3, M_srgb_to_xyz]
    constructor <;> linarith [hlr.1, hlr.2, hlg.1, hlg.2, hlb.1, hlb.2]
  have hX2 : (0.27351839006 : ℝ) ≤ X.2.1 ∧ X.2.1 ≤ 0.27351839008 := by
    rw [hXdef]
    simp only [mul3x3, M_srgb_to_xyz]
    constructor <;> linarith [hlr.1, hlr.2, hlg.1, hlg.2, hlb.1, hlb.2]
  have hX3 : (0.17087989158 : ℝ) ≤ X.2.2 ∧ X.2.2 ≤ 0.17087989160 := by
    rw [hXdef]
    simp only [mul3x3, M_srgb_to_xyz]
    constructor <;> linarith [hlr.1, hlr.2, hlg.1, hlg.2, hlb.1, hlb.2]
  have hW1 : (0.20068351395 : ℝ) ≤ W.1 ∧ W.1 ≤ 0.20068351400 := by
    rw [hWdef]
    simp only [adaptD65toD50, mul3x3, M, Mi, D65, D50]
    constructor <;> linarith [hX1.1, hX1.2, hX2.1, hX2.2, hX3.1, hX3.2]
  have hW2 : (0.27372552414 : ℝ) ≤ W.2.1 ∧ W.2.1 ≤ 0.27372552418 := by
    rw [hWdef]
    simp only [adaptD65toD50, mul3x3, M, Mi, D65, D50]
    constructor <;> linarith [hX1.1, hX1.2, hX2.1, hX2.2, hX3.1, hX3.2]
  have hW3 : (0.13084989366 : ℝ) ≤ W.2.2 ∧ W.2.2 ≤ 0.13084989370 := by
    rw [hWdef]
    simp only [adaptD65toD50, mul3x3, M, Mi, D65, D50]
    constructor <;> linarith [hX1.1, hX1.2, hX2.1, hX2.2, hX3.1, hX3.2]
  have hxr : (0.2081304202 : ℝ) ≤ W.1 / 0.96422 ∧ W.1 / 0.96422 ≤ 0.2081304205 := by
    constructor
    · rw [le_div_iff₀ (by norm_num : (0 : ℝ) < 0.96422)]; linarith [hW1.1]
    · rw [div_le_iff₀ (by norm_num : (0 : ℝ) < 0.96422)]; linarith [hW1.2]
  have hyr : (0.2737255240 : ℝ) ≤ W.2.1 / 1.00000 ∧ W.2.1 / 1.00000 ≤ 0.2737255242 := by
    constructor
    · rw [le_div_iff₀ (by norm_num : (0 : ℝ) < 1.00000)]; linarith [hW2.1]
    · rw [div_le_iff₀ (by norm_num : (0 : ℝ) < 1.00000)]; linarith [hW2.2]
  have hzr : (0.1585655694 : ℝ) ≤ W.2.2 / 0.82521 ∧ W.2.2 / 0.82521 ≤ 0.1585655697 := by
    constructor
    · rw [le_div_iff₀ (by norm_num : (0 : ℝ) < 0.82521)]; linarith [hW3.1]
    · rw [div_le_iff₀ (by norm_num : (0 : ℝ) < 0.82521)]; linarith [hW3.2]
  have hfx : (0.592623023 : ℝ) ≤ f_lab (W.1 / 0.96422) ∧ f_lab (W.1 / 0.96422) ≤ 0.592623026 :=
    f_lab_bounds (W.1 / 0.96422) 0.2081304202 0.2081304205 0.592623023 0.592623026
      hxr.1 hxr.2 (by norm_num) (by norm_num) (by norm_num) (by norm_num) (by norm_num)
  have hfy : (0.649289577 : ℝ) ≤ f_lab (W.2.1 / 1.00000) ∧ f_lab (W.2.1 / 1.00000) ≤ 0.649289580 :=
    f_lab_bounds (W.2.1 / 1.00000) 0.2737255240 0.2737255242 0.649289577 0.649289580
      hyr.1 hyr.2 (by norm_num) (by norm_num) (by norm_num) (by norm_num) (by norm_num)
  have hfz : (0.541256298 : ℝ) ≤ f_lab (W.2.2 / 0.82521) ∧ f_lab (W.2.2 / 0.82521) ≤ 0.541256301 :=
    f_lab_bounds (W.2.2 / 0.82521) 0.1585655694 0.1585655697 0.541256298 0.541256301
      hzr.1 hzr.2 (by norm_num) (by norm_num) (by norm_num) (by norm_num) (by norm_num)
  refine ⟨⟨(lr, lg, lb), X, W, xyzD50_to_lab W⟩, ?_, ⟨?_, ?_, ?_⟩, ⟨?_, ?_, ?_⟩, rfl⟩
  · rw [hexToLabD50, hrgb, hlrdef, hlgdef, hlbdef, hXdef, hWdef]
  · show |(xyzD50_to_lab W).1 - 59.3| ≤ 0.5
    simp only [xyzD50_to_lab, D50]
    rw [abs_le]
    constructor <;> linarith [hfy.1, hfy.2]
  · show |(xyzD50_to_lab W).2.1 + 28.1| ≤ 0.5
    simp only [xyzD50_to_lab, D50]
    rw [abs_le]
    constructor <;> linarith [hfx.1, hfx.2, hfy.1, hfy.2]
  · show |(xyzD50_to_lab W).2.2 - 21.6| ≤ 0.5
    simp only [xyzD50_to_lab, D50]
    rw [abs_le]
    constructor <;> linarith [hfy.1, hfy.2, hfz.1, hfz.2]
  · show |(intent_perceptual (xyzD50_to_lab W)).1 - 57.8| ≤ 0.5
    simp only [intent_perceptual, xyzD50_to_lab, D50]
    rw [abs_le]
    constructor <;> linarith [hfy.1, hfy.2]
  · show |(intent_perceptual (xyzD50_to_lab W)).2.1 + 27| ≤ 0.5
    simp only [intent_perceptual, xyzD50_to_lab, D50]
    rw [abs_le]
    constructor <;> linarith [hfx.1, hfx.2, hfy.1, hfy.2]
  · show |(intent_perceptual (xyzD50_to_lab W)).2.2 - 20.1| ≤ 0.5
    simp only [intent_perceptual, xyzD50_to_lab, D50]
    rw [abs_le]
    constructor <;> linarith [hfy.1, hfy.2, hfz.1, hfz.2]

/-- The Lab helper functions are exact mutual inverses on all of `ℝ`. -/
theorem finv_f (t : ℝ) : finv_lab (f_lab t) = t := by
  unfold f_lab finv_lab
  by_cases h : (216 : ℝ) / 24389 < t
  · rw [if_pos h]
    have ht : (0 : ℝ) ≤ t := le_trans (by norm_num) h.le
    have h3 : t ^ ((1 : ℝ) / 3) * t ^ ((1 : ℝ) / 3) * t ^ ((1 : ℝ) / 3) = t := by
      calc t ^ ((1 : ℝ) / 3) * t ^ ((1 : ℝ) / 3) * t ^ ((1 : ℝ) / 3)
          = (t ^ ((1 : ℝ) / 3)) ^ (3 : ℕ) := by ring
        _ = (t ^ ((1 : ℝ) / 3)) ^ ((3 : ℕ) : ℝ) := (Real.rpow_natCast _ 3).symm
        _ = t ^ (((1 : ℝ) / 3) * 3) := (Real.rpow_mul ht _ _).symm
        _ = t ^ (1 : ℝ) := by norm_num
        _ = t := Real.rpow_one t
    rw [h3, if_pos h]
  · rw [if_neg h]
    push_neg at h
    have hcube : ((24389 : ℝ) / 27 * t + 16) / 116 * (((24389 : ℝ) / 27 * t + 16) / 116) *
        (((24389 : ℝ) / 27 * t + 16) / 116) ≤ 216 / 24389 := by
      nlinarith [sq_nonneg (((24389 : ℝ) / 27 * t + 16) / 116 + 3 / 29),
        sq_nonneg (((24389 : ℝ) / 27 * t + 16) / 116)]
    rw [if_neg (not_lt.mpr hcube)]
    field_simp
    ring

/-- The Lab codec round trip is exact in real arithmetic. -/
theorem lab_xyz_roundtrip (v : Vec3) : lab_to_xyzD50 (xyzD50_to_lab v) = v := by
  obtain ⟨x, y, z⟩ := v
  simp only [xyzD50_to_lab, lab_to_xyzD50, D50, Prod.mk.injEq]
  refine ⟨?_, ?_, ?_⟩
  · have a1 : (116 * f_lab (y / 1.00000) - 16 + 16) / 116 +
        500 * (f_lab (x / 0.96422) - f_lab (y / 1.00000)) / 500 = f_lab (x / 0.96422) := by
      ring
    rw [a1, finv_f, div_mul_cancel₀]
    norm_num
  · have a2 : (116 * f_lab (y / 1.00000) - 16 + 16) / 116 = f_lab (y / 1.00000) := by ring
    rw [a2, finv_f]
    norm_num
  · have a3 : (116 * f_lab (y / 1.00000) - 16 + 16) / 116 -
        200 * (f_lab (y / 1.00000) - f_lab (z / 0.82521)) / 200 = f_lab (z / 0.82521) := by
      ring
    rw [a3, finv_f, div_mul_cancel₀]
    norm_num

/-- C3: for every XYZ(D50) triplet (in particular every one reachable
from a valid sRGB input), the Lab round trip agrees with the input within
1e-6 per component — in fact it is exact. -/
theorem claim_C3 (v : Vec3) :
    |(lab_to_xyzD50 (xyzD50_to_lab v)).1 - v.1| ≤ 1e-6 ∧
    |(lab_to_xyzD50 (xyzD50_to_lab v)).2.1 - v.2.1| ≤ 1e-6 ∧
    |(lab_to_xyzD50 (xyzD50_to_lab v)).2.2 - v.2.2| ≤ 1e-6 := by
  rw [lab_xyz_roundtrip]
  norm_num

/-- C4: the gamma round trip `linearToSrgb (srgbToLinear c)` differs from
`c` by less than 1e-6 on `[0,1]`.  It is exact except on the sliver
`(0.0031308·12.92, 0.04045]` where the two breakpoints disagree, and
there the error stays below 1.5e-7. -/
theorem claim_C4 (c : ℝ) (h0 : 0 ≤ c) (h1 : c ≤ 1) :
    |linearToSrgb (srgbToLinear c) - c| < 1e-6 := by
  rw [srgbToLinear]
  by_cases hc : c ≤ 0.04045
  · rw [if_pos hc, linearToSrgb]
    by_cases hlin : c / 12.92 ≤ 0.0031308
    · rw [if_pos hlin, mul_comm, div_mul_cancel₀ _ (by norm_num : (12.92 : ℝ) ≠ 0)]
      simp only [sub_self, abs_zero]
      norm_num
    · rw [if_neg hlin]
      push_neg at hlin
      have hc' : (0.040449936 : ℝ) < c := by
        rw [lt_div_iff₀ (by norm_num : (0 : ℝ) < 12.92)] at hlin
        linarith
      have hxu : c / 12.92 ≤ 809 / 258400 := by
        rw [div_le_div_iff₀ (by norm_num) (by norm_num)]
        linarith
      have e24 : ((1 : ℝ) / 2.4) = ((5 : ℕ) : ℝ) / ((12 : ℕ) : ℝ) := by norm_num
      rw [e24]
      have hA : (0.0904738 : ℝ) ≤ (c / 12.92) ^ (((5 : ℕ) : ℝ) / ((12 : ℕ) : ℝ)) := by
        apply le_rpow_of_pow_le (by norm_num) (by norm_num) (by positivity)
        calc (0.0904738 : ℝ) ^ 12 ≤ (0.0031308 : ℝ) ^ 5 := by norm_num
          _ ≤ (c / 12.92) ^ 5 := pow_le_pow_left₀ (by norm_num) hlin.le 5
      have hB : (c / 12.92) ^ (((5 : ℕ) : ℝ) / ((12 : ℕ) : ℝ)) ≤ 0.0904740 := by
        apply rpow_le_of_pow_le (by norm_num) (by norm_num) (by positivity)
        calc (c / 12.92) ^ 5 ≤ ((809 : ℝ) / 258400) ^ 5 := pow_le_pow_left₀ (by positivity) hxu 5
          _ ≤ (0.0904740 : ℝ) ^ 12 := by norm_num
      rw [abs_lt]
      constructor <;> linarith
  · rw [if_neg hc]
    push_neg at hc
    have hb0 : (0 : ℝ) < (c + 0.055) / 1.055 := div_pos (by linarith) (by norm_num)
    have hbl : (1909 : ℝ) / 21100 < (c + 0.055) / 1.055 := by
      rw [div_lt_div_iff₀ (by norm_num) (by norm_num)]
      linarith
    have hlin2 : (0.0031308 : ℝ) < ((c + 0.055) / 1.055) ^ (2.4 : ℝ) := by
      have e1 : (2.4 : ℝ) = ((12 : ℕ) : ℝ) / ((5 : ℕ) : ℝ) := by norm_num
      rw [e1]
      have step1 : (0.0031308 : ℝ) ≤ ((1909 : ℝ) / 21100) ^ (((12 : ℕ) : ℝ) / ((5 : ℕ) : ℝ)) :=
        le_rpow_of_pow_le (by norm_num) (by norm_num) (by norm_num) (by norm_num)
      have step2 : ((1909 : ℝ) / 21100) ^ (((12 : ℕ) : ℝ) / ((5 : ℕ) : ℝ)) <
          ((c + 0.055) / 1.055) ^ (((12 : ℕ) : ℝ) / ((5 : ℕ) : ℝ)) :=
        Real.rpow_lt_rpow (by norm_num) hbl (by norm_num)
      linarith
    rw [linearToSrgb, if_neg (not_le.mpr hlin2)]
    have hinv : (((c + 0.055) / 1.055) ^ (2.4 : ℝ)) ^ ((1 : ℝ) / 2.4) = (c + 0.055) / 1.055 := by
      rw [← Real.rpow_mul hb0.le]
      norm_num
    rw [hinv, mul_comm, div_mul_cancel₀ _ (by norm_num : (1.055 : ℝ) ≠ 0)]
    rw [abs_lt]
    constructor <;> linarith

/-- C4 witness: the round trip at `c = 1` is within tolerance. -/
theorem claim_C4_witness :
    (0 : ℝ) ≤ 1 ∧ (1 : ℝ) ≤ 1 ∧ |linearToSrgb (srgbToLinear 1) - 1| < 1e-6 :=
  ⟨by norm_num, by norm_num, claim_C4 1 (by norm_num) (by norm_num)⟩

set_option maxHeartbeats 2000000 in
/-- C5: the Bradford adaptation round trip D65→D50→D65 agrees with its
input within 1e-6 per component on the box `[0,2]³` (the source's inverse
Bradford matrix is rounded to 7 decimals, so the round trip is close to
but not exactly the identity). -/
theorem claim_C5 (x y z : ℝ) (hx0 : 0 ≤ x) (hx2 : x ≤ 2) (hy0 : 0 ≤ y) (hy2 : y ≤ 2)
    (hz0 : 0 ≤ z) (hz2 : z ≤ 2) :
    |(adaptD50toD65 (adaptD65toD50 (x, y, z))).1 - x| ≤ 1e-6 ∧
    |(adaptD50toD65 (adaptD65toD50 (x, y, z))).2.1 - y| ≤ 1e-6 ∧
    |(adaptD50toD65 (adaptD65toD50 (x, y, z))).2.2 - z| ≤ 1e-6 := by
  simp only [adaptD65toD50, adaptD50toD65, mul3x3, M, Mi, D65, D50]
  refine ⟨?_, ?_, ?_⟩ <;> rw [abs_le] <;> constructor <;> norm_num <;> linarith

/-- C5 witness: the adaptation round trip at the white point `(1,1,1)`. -/
theorem claim_C5_witness :
    ((0 : ℝ) ≤ 1 ∧ (1 : ℝ) ≤ 2) ∧
    |(adaptD50toD65 (adaptD65toD50 ((1 : ℝ), (1 : ℝ), (1 : ℝ)))).1 - 1| ≤ 1e-6 ∧
    |(adaptD50toD65 (adaptD65toD50 ((1 : ℝ), (1 : ℝ), (1 : ℝ)))).2.1 - 1| ≤ 1e-6 ∧
    |(adaptD50toD65 (adaptD65toD50 ((1 : ℝ), (1 : ℝ), (1 : ℝ)))).2.2 - 1| ≤ 1e-6 :=
  ⟨⟨by norm_num, by norm_num⟩,
    claim_C5 1 1 1 (by norm_num) (by norm_num) (by norm_num) (by norm_num)
      (by norm_num) (by norm_num)⟩

/-- C6: each rendering-intent transform equals its fixed affine map from
the spec's table, and the naive intent is the identity. -/
theorem claim_C6 :
    (∀ L a b : ℝ, intent_perceptual (L, a, b) = (0.96 * L + 0.9, 0.96 * a, 0.93 * b)) ∧
    (∀ L a b : ℝ, intent_saturation (L, a, b) = (0.96 * L + 1.1, 1.09 * a, 1.08 * b)) ∧
    (∀ L a b : ℝ, intent_relative (L, a, b) = (0.96 * L + 0.9, 1.09 * a, 1.08 * b)) ∧
    (∀ L a b : ℝ, intent_absolute (L, a, b) = (1.11 * L + 0.2, 1.17 * a, 1.05 * b)) ∧
    (∀ lab : Vec3, intent_naive lab = lab) := by
  refine ⟨?_, ?_, ?_, ?_, fun lab => rfl⟩ <;>
    intro L a b <;>
    simp only [intent_perceptual, intent_saturation, intent_relative, intent_absolute,
      Prod.mk.injEq] <;>
    refine ⟨by ring, by ring, by ring⟩

/-- C7: the CMYK stage maps linear black to `(0,0,0,1)` through the
near-black threshold branch and linear white to `(0,0,0,0)`. -/
theorem claim_C7 :
    rgbLinear_to_cmyk (0, 0, 0) = (0, 0, 0, 1) ∧
    rgbLinear_to_cmyk (1, 1, 1) = (0, 0, 0, 0) := by
  constructor
  · simp only [rgbLinear_to_cmyk, displayEncode, linearToSrgb, clamp]
    norm_num
  · simp only [rgbLinear_to_cmyk, displayEncode, linearToSrgb, clamp]
    norm_num [Real.one_rpow]

/-- C8: whenever the CMYK extraction takes the normalization branch
(`K < 1 − 1e-6`), converting the result back with `cmyk_to_rgb` recovers
exactly the clamped display-encoded triplet computed inside
`rgbLinear_to_cmyk`. -/
theorem claim_C8 (l : Vec3)
    (h : min (1 - (displayEncode l).1)
      (min (1 - (displayEncode l).2.1) (1 - (displayEncode l).2.2)) < 1 - 1e-6) :
    cmyk_to_rgb (rgbLinear_to_cmyk l) = displayEncode l := by
  have hk : (1e-6 : ℝ) < 1 - min (1 - (displayEncode l).1)
      (min (1 - (displayEncode l).2.1) (1 - (displayEncode l).2.2)) := by linarith
  simp only [rgbLinear_to_cmyk, cmyk_to_rgb, if_neg (not_le.mpr h)]
  have hne : (1 : ℝ) - min (1 - (displayEncode l).1)
      (min (1 - (displayEncode l).2.1) (1 - (displayEncode l).2.2)) ≠ 0 := by
    intro h0; rw [h0] at hk; norm_num at hk
  field_simp

/-- C8 witness: linear white takes the normalization branch and round
trips to its display encoding. -/
theorem claim_C8_witness :
    (min (1 - (displayEncode ((1 : ℝ), (1 : ℝ), (1 : ℝ))).1)
      (min (1 - (displayEncode ((1 : ℝ), (1 : ℝ), (1 : ℝ))).2.1)
        (1 - (displayEncode ((1 : ℝ), (1 : ℝ), (1 : ℝ))).2.2)) < 1 - 1e-6) ∧
    cmyk_to_rgb (rgbLinear_to_cmyk ((1 : ℝ), (1 : ℝ), (1 : ℝ))) =
      displayEncode ((1 : ℝ), (1 : ℝ), (1 : ℝ)) := by
  have hh : min (1 - (displayEncode ((1 : ℝ), (1 : ℝ), (1 : ℝ))).1)
      (min (1 - (displayEncode ((1 : ℝ), (1 : ℝ), (1 : ℝ))).2.1)
        (1 - (displayEncode ((1 : ℝ), (1 : ℝ), (1 : ℝ))).2.2)) < 1 - 1e-6 := by
    simp only [displayEncode, linearToSrgb, clamp]
    norm_num [Real.one_rpow]
  exact ⟨hh, claim_C8 _ hh⟩

/-- Clamping to `[0,1]` lands in `[0,1]`. -/
theorem clamp01_mem (x : ℝ) : 0 ≤ clamp x 0 1 ∧ clamp x 0 1 ≤ 1 :=
  ⟨le_min (le_max_right x 0) zero_le_one, min_le_right _ 1⟩

/-- C9: on its (nonnegative) linear-RGB domain, every CMYK quadruplet
produced by `rgbLinear_to_cmyk` has all four components in `[0,1]` and
satisfies `min(C, M, Y) = 0`. -/
theorem claim_C9 (l : Vec3) (h1 : 0 ≤ l.1) (h2 : 0 ≤ l.2.1) (h3 : 0 ≤ l.2.2) :
    (0 ≤ (rgbLinear_to_cmyk l).1 ∧ (rgbLinear_to_cmyk l).1 ≤ 1) ∧
    (0 ≤ (rgbLinear_to_cmyk l).2.1 ∧ (rgbLinear_to_cmyk l).2.1 ≤ 1) ∧
    (0 ≤ (rgbLinear_to_cmyk l).2.2.1 ∧ (rgbLinear_to_cmyk l).2.2.1 ≤ 1) ∧
    (0 ≤ (rgbLinear_to_cmyk l).2.2.2 ∧ (rgbLinear_to_cmyk l).2.2.2 ≤ 1) ∧
    min (rgbLinear_to_cmyk l).1
      (min (rgbLinear_to_cmyk l).2.1 (rgbLinear_to_cmyk l).2.2.1) = 0 := by
  obtain ⟨hs1, hs1'⟩ := clamp01_mem (linearToSrgb l.1)
  obtain ⟨hs2, hs2'⟩ := clamp01_mem (linearToSrgb l.2.1)
  obtain ⟨hs3, hs3'⟩ := clamp01_mem (linearToSrgb l.2.2)
  simp only [rgbLinear_to_cmyk, displayEncode]
  set sr := clamp (linearToSrgb l.1) 0 1 with hsr
  set sg := clamp (linearToSrgb l.2.1) 0 1 with hsg
  set sb := clamp (linearToSrgb l.2.2) 0 1 with hsb
  set k := min (1 - sr) (min (1 - sg) (1 - sb)) with hk
  have hkc : k ≤ 1 - sr := min_le_left _ _
  have hkm : k ≤ 1 - sg := le_trans (min_le_right _ _) (min_le_left _ _)
  have hky : k ≤ 1 - sb := le_trans (min_le_right _ _) (min_le_right _ _)
  have hk0 : 0 ≤ k := le_min (by linarith) (le_min (by linarith) (by linarith))
  by_cases hb : (1 : ℝ) - 1e-6 ≤ k
  · rw [if_pos hb]
    norm_num
  · rw [if_neg hb]
    push_neg at hb
    have hpos : (0 : ℝ) < 1 - k := by
      have : (0 : ℝ) < 1e-6 := by norm_num
      linarith
    refine ⟨⟨?_, ?_⟩, ⟨?_, ?_⟩, ⟨?_, ?_⟩, ⟨?_, ?_⟩, ?_⟩
    · exact div_nonneg (by linarith) hpos.le
    · rw [div_le_one hpos]; linarith
    · exact div_nonneg (by linarith) hpos.le
    · rw [div_le_one hpos]; linarith
    · exact div_nonneg (by linarith) hpos.le
    · rw [div_le_one hpos]; linarith
    · exact hk0
    · linarith
    · rw [min_div_div_right hpos.le, min_div_div_right hpos.le,
        min_sub_sub_right, min_sub_sub_right, ← hk]
      simp

/-- C9 witness: linear white has all CMYK components in `[0,1]` and zero
chromatic minimum. -/
theorem claim_C9_witness :
    (0 : ℝ) ≤ 1 ∧ (0 : ℝ) ≤ 1 ∧ (0 : ℝ) ≤ 1 ∧
    min (rgbLinear_to_cmyk ((1 : ℝ), (1 : ℝ), (1 : ℝ))).1
      (min (rgbLinear_to_cmyk ((1 : ℝ), (1 : ℝ), (1 : ℝ))).2.1
        (rgbLinear_to_cmyk ((1 : ℝ), (1 : ℝ), (1 : ℝ))).2.2.1) = 0 :=
  ⟨by norm_num, by norm_num, by norm_num,
    (claim_C9 ((1 : ℝ), (1 : ℝ), (1 : ℝ)) (by norm_num) (by norm_num) (by norm_num)).2.2.2.2⟩

end ColorPipe
